import Mathlib

/-!
Verification of the cuna cue-sheet parser (src/parser.rs, src/utils.rs,
src/track.rs, src/error.rs) via a shallow embedding.  Rust `&str` values
are embedded as `List Char`; each Rust function used by the claims is
translated to a computable Lean definition bearing the source name where
possible.  The crate root (`Cuna`/`Header`, lib.rs) and the time-code
value type (`TimeStamp`, time.rs) are not part of the sources; those
definitions are modelled from the spec and marked as such.
-/

/-- Rust `&str` / `String`, embedded as a list of characters. -/
abbrev Str := List Char

/-- Rust `s.trim_matches('"')`: strips every leading and trailing `"`. -/
def trimQuotes (l : Str) : Str :=
  ((l.dropWhile (fun c => c = '"')).reverse.dropWhile (fun c => c = '"')).reverse

/-- Left half of Rust `str::trim` (whitespace). -/
def trimLeft (l : Str) : Str := l.dropWhile (fun c => c.isWhitespace)

/-- Right half of Rust `str::trim` (whitespace). -/
def trimRight (l : Str) : Str := (l.reverse.dropWhile (fun c => c.isWhitespace)).reverse

/-- Rust `str::trim`. -/
def trim (l : Str) : Str := trimRight (trimLeft l)

/-- Rust `str::to_ascii_lowercase`. -/
def lower (l : Str) : Str := l.map Char.toLower

/-- Split at the first occurrence of `c`: `some (before, after)`, the
occurrence itself consumed; `none` when `c` does not occur.  This is the
combinator underlying nom's `take_until`/`terminated(.., tag)` uses in
utils.rs, specialised to one-character separators. -/
def splitAtChar (c : Char) : Str → Option (Str × Str)
  | [] => none
  | x :: l =>
    if x = c then some ([], l)
    else
      match splitAtChar c l with
      | some (a, b) => some (x :: a, b)
      | none => none

/-- utils.rs `token`: `terminated(take_until(" "), tag(" "))`; returns
`(remainder, matched)` in nom's `(rest, output)` order. -/
def token (l : Str) : Option (Str × Str) :=
  (splitAtChar ' ' l).map (fun p => (p.2, p.1))

/-- utils.rs `quote`: `delimited(tag("\""), take_until("\""), tag("\""))`;
returns `(remainder, inner)`. -/
def quote (l : Str) : Option (Str × Str) :=
  match l with
  | '"' :: r => (splitAtChar '"' r).map (fun p => (p.2, p.1))
  | _ => none

/-- utils.rs `quote_opt`: `alt((quote, rest))` — the `rest` fallback always
succeeds, so this is total; returns `(remainder, output)`. -/
def quoteOpt (l : Str) : Str × Str :=
  match quote l with
  | some p => p
  | none => ([], l)

/-- The maximal leading run of ASCII digits (nom `digit0`). -/
def leadingDigits (l : Str) : Str := l.takeWhile Char.isDigit

/-- Decimal value of a digit string (Rust `str::parse` on digits). -/
def digitsToNat (l : Str) : Nat :=
  l.foldl (fun a c => 10 * a + (c.toNat - 48)) 0

/-- utils.rs `number(n)`: exactly `n` leading digits, parsed; returns
`(remainder, value)`.  The Rust `map_res` integer parse cannot fail on the
call sites used here (2-digit values fit `u8`, 13-digit values fit `u64`). -/
def number (n : Nat) (l : Str) : Option (Str × Nat) :=
  let d := leadingDigits l
  if d.length = n then some (l.drop n, digitsToNat d) else none


/-- Little-endian decimal digits, fuelled for structural recursion (the
fuel is irrelevant as long as it exceeds the number). -/
def toDigitsRevGo : Nat → Nat → List Nat
  | _, 0 => []
  | n, fuel + 1 => if n < 10 then [n] else (n % 10) :: toDigitsRevGo (n / 10) fuel

/-- Little-endian decimal digits of `n` (each entry `< 10`). -/
def toDigitsRev (n : Nat) : List Nat := toDigitsRevGo n (n + 1)

/-- The character for a decimal digit. -/
def digitChar (d : Nat) : Char :=
  match d with
  | 0 => '0' | 1 => '1' | 2 => '2' | 3 => '3' | 4 => '4'
  | 5 => '5' | 6 => '6' | 7 => '7' | 8 => '8' | _ => '9'

/-- Rust `Display` for unsigned integers: decimal, no padding, no sign. -/
def natToStr (n : Nat) : Str := ((toDigitsRev n).map digitChar).reverse

/-- Two-digit zero-padded decimal text. -/
def pad2 (n : Nat) : Str := if n < 10 then '0' :: natToStr n else natToStr n


instance exceptDecEq {ε α : Type} [DecidableEq ε] [DecidableEq α] : DecidableEq (Except ε α)
  | .error e, .error f =>
    if h : e = f then .isTrue (by rw [h]) else .isFalse (fun k => by cases k; exact h rfl)
  | .error _, .ok _ => .isFalse (fun k => Except.noConfusion k)
  | .ok _, .error _ => .isFalse (fun k => Except.noConfusion k)
  | .ok a, .ok b =>
    if h : a = b then .isTrue (by rw [h]) else .isFalse (fun k => by cases k; exact h rfl)

/-- error.rs `InvalidArgument`. -/
inductive InvalidArgument
  | invalidTimestamp
  | missingArgument
  | invalidId
deriving DecidableEq

/-- error.rs `ParseError`.  The `IoError` variant is unreachable in the
parsing code embedded here and is omitted. -/
inductive ParseError
  | syntaxError (msg : Str)
  | unexpectedToken (msg : Str)
  | invalidArgument (a : InvalidArgument)
  | empty
deriving DecidableEq

/-- error.rs `ParseError::syntax_error(content, description)`:
`SyntaxError(format!("{}: {}", content, description))`. -/
def syntaxErrorMsg (content description : Str) : ParseError :=
  .syntaxError (content ++ (": ".data) ++ description)

/-- Modelled from the spec: the `TimeStamp` value type of the missing
time.rs (`MM:SS:FF` time code, 75 frames per second; the spec treats it as
opaque beyond "must parse from text, must print back to the same textual
shape").  `Duration` in track.rs is the same value type. -/
structure TimeStamp where
  minutes : Nat
  seconds : Nat
  frames : Nat
deriving DecidableEq

/-- Modelled from the spec: parsing the literal textual form `MM:SS:FF`
(two decimal digits per field, seconds below 60, frames below 75; the
repository's tests accept `61:29:73` and reject `6:772:11`, `6:72:111`,
and frame values of 75 or more). -/
def parseTimeStamp (l : Str) : Except ParseError TimeStamp :=
  match splitAtChar ':' l with
  | none => .error (.invalidArgument .invalidTimestamp)
  | some (m, r) =>
    match splitAtChar ':' r with
    | none => .error (.invalidArgument .invalidTimestamp)
    | some (s, f) =>
      if m.length = 2 ∧ s.length = 2 ∧ f.length = 2 ∧
          m.all Char.isDigit ∧ s.all Char.isDigit ∧ f.all Char.isDigit ∧
          digitsToNat s ≤ 59 ∧ digitsToNat f ≤ 74 then
        .ok ⟨digitsToNat m, digitsToNat s, digitsToNat f⟩
      else .error (.invalidArgument .invalidTimestamp)

/-- Modelled from the spec: `TimeStamp`'s `Display`, the same textual
shape it parses from (`61:29:73` in the repository's tests). -/
def displayTS (t : TimeStamp) : Str :=
  pad2 t.minutes ++ (":".data) ++ pad2 t.seconds ++ (":".data) ++ pad2 t.frames


/-- parser.rs `Command`. -/
inductive Command
  | rem (c : Str)
  | title (c : Str)
  | performer (c : Str)
  | songwriter (c : Str)
  | catalog (c : Nat)
  | cdtextfile (c : Str)
  | file (name format : Str)
  | track (id : Nat) (format : Str)
  | index (id : Nat) (timestamp : TimeStamp)
  | pregap (c : Str)
  | postgap (c : Str)
  | isrc (c : Str)
  | flags (c : Str)
deriving DecidableEq

/-- parser.rs `impl fmt::Display for Command`. -/
def render : Command → Str
  | .rem c => ("REM ".data) ++ c
  | .title c => ("TITLE \"".data) ++ c ++ ("\"".data)
  | .performer c => ("PERFORMER \"".data) ++ c ++ ("\"".data)
  | .songwriter c => ("SONGWRITER \"".data) ++ c ++ ("\"".data)
  | .catalog c => ("CATALOG ".data) ++ natToStr c
  | .cdtextfile c => ("CDTEXTFILE \"".data) ++ c ++ ("\"".data)
  | .file name tp => ("FILE \"".data) ++ name ++ ("\" ".data) ++ tp
  | .track id format => ("TRACK ".data) ++ natToStr id ++ (" ".data) ++ format
  | .index id timestamp => ("INDEX ".data) ++ natToStr id ++ (" ".data) ++ displayTS timestamp
  | .pregap c => ("PREGAP ".data) ++ c
  | .postgap c => ("POSTGAP ".data) ++ c
  | .isrc c => ("ISRC ".data) ++ c
  | .flags c => ("FLAG ".data) ++ c

/-- The `catalog` arm of parser.rs `Command::new`. -/
def catalogArm (content : Str) : Except ParseError Command :=
  match number 13 content with
  | some (_, catalog) => .ok (.catalog catalog)
  | none => .error (syntaxErrorMsg content ("invaild catalog".data))

/-- The `file` arm of parser.rs `Command::new` — `quote_opt` never fails,
so the source's "missing arguments" arm there is dead code. -/
def fileArm (content : Str) : Except ParseError Command :=
  let p := quoteOpt content
  .ok (.file (trimQuotes p.2) (trim p.1))

/-- The `track` arm of parser.rs `Command::new`. -/
def trackArm (command content : Str) : Except ParseError Command :=
  match token content with
  | some (format, id) =>
    match number 2 id with
    | some (_, n) => .ok (.track n format)
    | none => .error (.invalidArgument .invalidId)
  | none => .error (syntaxErrorMsg command ("missing arguments".data))

/-- The `index` arm of parser.rs `Command::new`. -/
def indexArm (command content : Str) : Except ParseError Command :=
  match token content with
  | some (timestamp, id) =>
    match number 2 id with
    | some (_, n) =>
      match parseTimeStamp timestamp with
      | .ok ts => .ok (.index n ts)
      | .error e => .error e
    | none => .error (.invalidArgument .invalidId)
  | none => .error (syntaxErrorMsg command ("missing arguments".data))

/-- The keyword dispatch of parser.rs `Command::new`: the match on the
lower-cased command keyword, applied to the remaining content. -/
def dispatchCmd (command content : Str) : Except ParseError Command :=
  let lc := lower command
  if lc = ("rem".data) then .ok (.rem content)
  else if lc = ("title".data) then .ok (.title (trimQuotes content))
  else if lc = ("performer".data) then .ok (.performer (trimQuotes content))
  else if lc = ("songwriter".data) then .ok (.songwriter (trimQuotes content))
  else if lc = ("catalog".data) then catalogArm content
  else if lc = ("cdtextfile".data) then .ok (.cdtextfile (trimQuotes content))
  else if lc = ("file".data) then fileArm content
  else if lc = ("track".data) then trackArm command content
  else if lc = ("index".data) then indexArm command content
  else if lc = ("pregap".data) then .ok (.pregap (trimQuotes content))
  else if lc = ("postgap".data) then .ok (.postgap (trimQuotes content))
  else if lc = ("isrc".data) then .ok (.isrc (trimQuotes content))
  else if lc = ("flag".data) then .ok (.flags (trimQuotes content))
  else .error (.unexpectedToken command)

/-- parser.rs `Command::new`. -/
def commandNew (s : Str) : Except ParseError Command :=
  let t := trim s
  if t = [] then .error .empty
  else
    match token t with
    | none => .error (syntaxErrorMsg t ("missing arguments".data))
    | some (content, command) => dispatchCmd command content


/-- track.rs `Index`. -/
structure Index where
  id : Nat
  begin_time : TimeStamp
deriving DecidableEq

/-- track.rs `Track` (ids are `u8` in the source; the parser only ever
stores two-digit values). -/
structure Track where
  id : Nat
  format : Str
  index : List Index
  pregap : Option TimeStamp
  postgap : Option TimeStamp
  title : Option (List Str)
  performer : Option (List Str)
  songwriter : Option (List Str)
  isrc : Option Str
  flags : Option (List Str)
deriving DecidableEq

/-- track.rs `Track::default()` restricted to the fields `Track::new`
fills: everything empty/none. -/
def Track.mkNew (id : Nat) (format : Str) : Track :=
  ⟨id, format, [], none, none, none, none, none, none, none⟩

/-- track.rs `Index::new`: the checked constructor (the source checks
only `id <= 99`; its error text says "between 1 and 99").  The `u8`
argument type bounds `id` below 256. -/
def Index.new (id : Nat) (begin_time : TimeStamp) : Except Str Index :=
  if id ≤ 99 then .ok ⟨id, begin_time⟩
  else .error ("index-id must be between 1 and 99".data)

/-- track.rs `Track::new`: the checked constructor (the source checks
only `id <= 99`; its error text says "between 1 and 99"). -/
def Track.new (id : Nat) (format : Str) : Except Str Track :=
  if id ≤ 99 then .ok (Track.mkNew id format)
  else .error ("track-id must be between 1 and 99".data)

/-- track.rs `TrackInfo`. -/
structure TrackInfo where
  name : Str
  format : Str
  tracks : List Track
deriving DecidableEq

/-- Modelled from the spec: the `Header` record of the missing lib.rs —
optional title/performer/songwriter lists, an optional numeric catalog
code, an optional CD-text file path; `push_*` appends (creating the list
on first use, like `Track::push_title`), `set_cdtextfile` replaces the
value, returning the previous one (§4.3: "set_* returning the previous
value"). -/
structure Header where
  title : Option (List Str)
  performer : Option (List Str)
  songwriter : Option (List Str)
  catalog : Option Nat
  cdtextfile : Option Str
deriving DecidableEq

/-- Modelled from the spec: the `Cuna` document root of the missing
lib.rs — comments, header, ordered file entries; `last_file_mut` /
`last_track_mut` resolve the "current" file/track as the last element
(§9), `push_file` appends. -/
structure Cuna where
  header : Header
  files : List TrackInfo
  comments : List Str
deriving DecidableEq

def emptyCuna : Cuna := ⟨⟨none, none, none, none, none⟩, [], []⟩

/-- Reading view of `Cuna::last_file_mut`: the current (last) file entry. -/
def Cuna.lastFile? (d : Cuna) : Option TrackInfo := d.files.getLast?

/-- Reading view of `Cuna::last_track_mut`: the last track of the current
(last) file entry. -/
def Cuna.lastTrack? (d : Cuna) : Option Track :=
  d.files.getLast?.bind (fun f => f.tracks.getLast?)

/-- Apply `g` to the last element, if any (a `last_mut` write). -/
def modifyLast {α : Type} (g : α → α) : List α → List α
  | [] => []
  | [x] => [g x]
  | x :: xs => x :: modifyLast g xs

/-- Write through `Cuna::last_track_mut`. -/
def Cuna.modifyLastTrack (d : Cuna) (g : Track → Track) : Cuna :=
  { d with files := modifyLast (fun f => { f with tracks := modifyLast g f.tracks }) d.files }

/-- Rust `Option::get_or_insert_with(Vec::new).push(s)`. -/
def pushOpt (o : Option (List Str)) (s : Str) : Option (List Str) :=
  some (o.getD [] ++ [s])

/-- Rust `str::split(' ')`: pieces between single-space separators, empty
pieces kept (`"a  b"` gives `["a", "", "b"]`, `""` gives `[""]`). -/
def splitSpaces : Str → List Str
  | [] => [[]]
  | c :: l =>
    if c = ' ' then [] :: splitSpaces l
    else
      match splitSpaces l with
      | a :: rest => (c :: a) :: rest
      | [] => [[c]]


/-- parser.rs `Command::parse(&self, sheet: &mut Cuna)`, embedded as a
state-passing function returning the `Result` together with the
(possibly updated) document.  Every arm mirrors the source's match arm,
including the copy-pasted `CATALOG` message in the `Track` arm and the
unconditional `set_cdtextfile` in the `Cdtextfile` arm. -/
def applyCommand (c : Command) (d : Cuna) : Except ParseError Unit × Cuna :=
  match c with
  | .rem s => (.ok (), { d with comments := d.comments ++ [s] })
  | .title s =>
    match d.lastTrack? with
    | some _ => (.ok (), d.modifyLastTrack (fun tk => { tk with title := pushOpt tk.title s }))
    | none => (.ok (), { d with header := { d.header with title := pushOpt d.header.title s } })
  | .performer s =>
    match d.lastTrack? with
    | some _ => (.ok (), d.modifyLastTrack (fun tk => { tk with performer := pushOpt tk.performer s }))
    | none => (.ok (), { d with header := { d.header with performer := pushOpt d.header.performer s } })
  | .songwriter s =>
    match d.lastTrack? with
    | some _ => (.ok (), d.modifyLastTrack (fun tk => { tk with songwriter := pushOpt tk.songwriter s }))
    | none => (.ok (), { d with header := { d.header with songwriter := pushOpt d.header.songwriter s } })
  | .catalog s =>
    if d.header.catalog = none then
      (.ok (), { d with header := { d.header with catalog := some s } })
    else
      (.error (syntaxErrorMsg (render c) ("multiple `CATALOG` commands is not allowed".data)), d)
  | .cdtextfile s =>
    (.ok (), { d with header := { d.header with cdtextfile := some s } })
  | .file name format =>
    (.ok (), { d with files := d.files ++ [⟨name, format, []⟩] })
  | .track id format =>
    match d.lastFile? with
    | some _ =>
      (.ok (),
        { d with
            files := modifyLast (fun f => { f with tracks := f.tracks ++ [Track.mkNew id format] }) d.files })
    | none =>
      (.error (syntaxErrorMsg (render c) ("Multiple `CATALOG` commands is not allowed".data)), d)
  | .index id timestamp =>
    match d.lastTrack? with
    | some tk =>
      if tk.postgap = none then
        (.ok (), d.modifyLastTrack (fun t => { t with index := t.index ++ [⟨id, timestamp⟩] }))
      else
        (.error (syntaxErrorMsg (render c) ("Command `INDEX` should be before `POSTGAP`".data)), d)
    | none => (.error (.unexpectedToken ("INDEX".data)), d)
  | .pregap s =>
    match d.lastTrack? with
    | some tk =>
      if tk.index = [] ∧ tk.pregap = none then
        match parseTimeStamp s with
        | .ok t => (.ok (), d.modifyLastTrack (fun u => { u with pregap := some t }))
        | .error e => (.error e, d)
      else if tk.index ≠ [] then
        (.error (syntaxErrorMsg (render c) ("Command `PREGAP` should be before `INDEX`".data)), d)
      else
        (.error (syntaxErrorMsg (render c)
          ("Multiple `PREGAP` commands are not allowed in one `TRACK` scope".data)), d)
    | none => (.error (.unexpectedToken ("PREGAP".data)), d)
  | .postgap s =>
    match d.lastTrack? with
    | some tk =>
      if tk.postgap = none then
        match parseTimeStamp s with
        | .ok t => (.ok (), d.modifyLastTrack (fun u => { u with postgap := some t }))
        | .error e => (.error e, d)
      else
        (.error (syntaxErrorMsg (render c)
          ("Multiple `POSTGAP` commands are not allowed in one `TRACK` scope".data)), d)
    | none => (.error (.unexpectedToken ("POSTGAP".data)), d)
  | .isrc s =>
    match d.lastTrack? with
    | some tk =>
      if tk.isrc = none then
        (.ok (), d.modifyLastTrack (fun u => { u with isrc := some s }))
      else
        (.error (syntaxErrorMsg (render c)
          ("Multiple `ISRC` commands are not allowed in one `TRACK` scope".data)), d)
    | none => (.error (.unexpectedToken ("ISRC".data)), d)
  | .flags s =>
    match d.lastTrack? with
    | some tk =>
      if tk.flags = none then
        (.ok (), d.modifyLastTrack (fun u => { u with flags := some (u.flags.getD [] ++ splitSpaces s) }))
      else
        (.error (syntaxErrorMsg (render c)
          ("Multiple `FLAGS` commands are not allowed in one `TRACK` scope".data)), d)
    | none => (.error (.unexpectedToken ("FLAGS".data)), d)

/-- error.rs `Error`: a `ParseError` with an optional 1-based line. -/
structure Error where
  kind : ParseError
  pos : Option Nat
deriving DecidableEq

/-- parser.rs `Parser::parse_next_n_lines(n, state)`.  The parser cursor
is the list of remaining lines plus the 0-based index of the next one;
the result carries the `Result`, the advanced cursor and the document.
A line whose `Command::new` signals `Empty` is skipped (it still counts
against `n`, exactly as one iteration of the source's `take(n)` loop). -/
def parseN : Nat → List Str → Nat → Cuna → (Except Error Unit) × List Str × Nat × Cuna
  | 0, ls, p, d => (.ok (), ls, p, d)
  | _ + 1, [], p, d => (.ok (), [], p, d)
  | n + 1, l :: ls, p, d =>
    match commandNew l with
    | .error .empty => parseN n ls (p + 1) d
    | .error e => (.error ⟨e, some (p + 1)⟩, ls, p + 1, d)
    | .ok cmd =>
      match applyCommand cmd d with
      | (.ok _, d') => parseN n ls (p + 1) d'
      | (.error e, d') => (.error ⟨e, some (p + 1)⟩, ls, p + 1, d')

/-- parser.rs `Parser::parse(self, state)`: scan every remaining line,
fail-fast, skipping empty lines. -/
def parseAllS : List Str → Nat → Cuna → (Except Error Unit) × Cuna
  | [], _, d => (.ok (), d)
  | l :: ls, p, d =>
    match commandNew l with
    | .error .empty => parseAllS ls (p + 1) d
    | .error e => (.error ⟨e, some (p + 1)⟩, d)
    | .ok cmd =>
      match applyCommand cmd d with
      | (.ok _, d') => parseAllS ls (p + 1) d'
      | (.error e, d') => (.error ⟨e, some (p + 1)⟩, d')

/-- Rust `parse_next_n_lines(1, state)` (= `parse_next_line`) iterated `k`
times, stopping at the first error, threading cursor and document. -/
def rep1 : Nat → List Str → Nat → Cuna → (Except Error Unit) × List Str × Nat × Cuna
  | 0, ls, p, d => (.ok (), ls, p, d)
  | k + 1, ls, p, d =>
    match parseN 1 ls p d with
    | (.ok _, ls', p', d') => rep1 k ls' p' d'
    | e => e


/-- A document with one file entry holding one fresh track. -/
def docOneTrack : Cuna :=
  ⟨⟨none, none, none, none, none⟩,
    [⟨("a".data), ("WAVE".data), [Track.mkNew 1 ("AUDIO".data)]⟩], []⟩

/-- A document whose open track already has an index entry. -/
def docTrackIndexed : Cuna :=
  ⟨⟨none, none, none, none, none⟩,
    [⟨("a".data), ("WAVE".data),
      [{ Track.mkNew 1 ("AUDIO".data) with index := [⟨1, ⟨0, 0, 0⟩⟩] }]⟩], []⟩

/-- A document whose open track already has a pregap. -/
def docTrackPregapped : Cuna :=
  ⟨⟨none, none, none, none, none⟩,
    [⟨("a".data), ("WAVE".data),
      [{ Track.mkNew 1 ("AUDIO".data) with pregap := some ⟨0, 2, 0⟩ }]⟩], []⟩

/-- Last character is not whitespace (vacuously true for `[]`). -/
def lastNotWs (l : Str) : Bool :=
  match l.getLast? with
  | some c => !c.isWhitespace
  | none => true

/-- First character is not whitespace (vacuously true for `[]`). -/
def headNotWs (l : Str) : Bool :=
  match l.head? with
  | some c => !c.isWhitespace
  | none => true

/-- First character is not `"` (vacuously true for `[]`). -/
def headNotQ (l : Str) : Bool :=
  match l.head? with
  | some c => c != '"'
  | none => true

/-- Last character is not `"` (vacuously true for `[]`). -/
def lastNotQ (l : Str) : Bool :=
  match l.getLast? with
  | some c => c != '"'
  | none => true

/-- No `"` anywhere. -/
def noQuote (l : Str) : Bool := l.all (fun c => c != '"')

/-- A command all of whose text fields survive the renderer's quoting and
the parser's whitespace/quote trimming unchanged, and whose numeric
fields print at the width the grammar demands (13 digits for CATALOG,
2 digits for TRACK/INDEX ids, 2 digits per time-stamp field).  Rendering
such a command yields a line in canonical form, and those are exactly
the rendered lines on which `render ∘ parse` can be the identity. -/
def canonicalCmd : Command → Bool
  | .rem c => !c.isEmpty && lastNotWs c
  | .title c => headNotQ c && lastNotQ c
  | .performer c => headNotQ c && lastNotQ c
  | .songwriter c => headNotQ c && lastNotQ c
  | .catalog n => decide (10 ^ 12 ≤ n) && decide (n < 10 ^ 13)
  | .cdtextfile c => headNotQ c && lastNotQ c
  | .file name fmt => noQuote name && (fmt.isEmpty || (headNotWs fmt && lastNotWs fmt))
  | .track id fmt => decide (10 ≤ id) && decide (id ≤ 99) && !fmt.isEmpty && lastNotWs fmt
  | .index id ts =>
    decide (10 ≤ id) && decide (id ≤ 99) &&
      decide (ts.minutes ≤ 99) && decide (ts.seconds ≤ 59) && decide (ts.frames ≤ 74)
  | .pregap c => !c.isEmpty && lastNotWs c && headNotQ c && lastNotQ c
  | .postgap c => !c.isEmpty && lastNotWs c && headNotQ c && lastNotQ c
  | .isrc c => !c.isEmpty && lastNotWs c && headNotQ c && lastNotQ c
  | .flags c => !c.isEmpty && lastNotWs c && headNotQ c && lastNotQ c

/-- C1 counterexample: a document whose header already has a CD-text file
(`"a"`); applying a second `CDTEXTFILE "b"` command succeeds and replaces
the value instead of failing with a syntax error. -/
theorem c1_counterexample :
    applyCommand (Command.cdtextfile ("b".data))
        ⟨⟨none, none, none, none, some ("a".data)⟩, [], []⟩ =
      (.ok (), ⟨⟨none, none, none, none, some ("b".data)⟩, [], []⟩) := by
  decide

/-- C1 (amended): applying a `CDTEXTFILE` command to any document always
succeeds and overwrites the header's CD-text file with the new value —
the builder never raises a duplicate error for this command. -/
theorem c1_cdtextfile_replaces (d : Cuna) (s : Str) :
    applyCommand (.cdtextfile s) d =
      (.ok (), { d with header := { d.header with cdtextfile := some s } }) := by
  rfl

/-- C5: applying `TRACK 01 AUDIO` to a document with no file entry fails
and leaves the document unchanged, but the error carries the copy-pasted
message `Multiple CATALOG commands is not allowed` instead of one naming
the missing file scope. -/
theorem c5_track_no_file :
    applyCommand (Command.track 1 ("AUDIO".data)) emptyCuna =
      (.error (ParseError.syntaxError
        ("TRACK 1 AUDIO: Multiple `CATALOG` commands is not allowed".data)), emptyCuna) := by
  decide

/-- C6: the checked constructors accept id 0, which is outside 1..=99
(their own error text says "must be between 1 and 99"), and a parsed
document can store a track with id 0 (`TRACK 00`). -/
theorem c6_id_zero :
    Index.new 0 ⟨0, 0, 0⟩ = .ok ⟨0, ⟨0, 0, 0⟩⟩ ∧
    Track.new 0 ("AUDIO".data) = .ok (Track.mkNew 0 ("AUDIO".data)) ∧
    commandNew ("TRACK 00 AUDIO".data) = .ok (.track 0 ("AUDIO".data)) ∧
    (parseAllS [("FILE \"a\" WAVE".data), ("TRACK 00 AUDIO".data)] 0 emptyCuna).1 = .ok () ∧
    (parseAllS [("FILE \"a\" WAVE".data), ("TRACK 00 AUDIO".data)] 0 emptyCuna).2.lastTrack? =
      some (Track.mkNew 0 ("AUDIO".data)) := by
  decide

/-- C8: on a document whose catalog is unset, the first `CATALOG` sets
it; a second `CATALOG` fails with the duplicate-command syntax error and
the stored value remains the first one. -/
theorem c8_catalog_once (d : Cuna) (a b : Nat) (h : d.header.catalog = none) :
    (applyCommand (.catalog a) d).1 = .ok () ∧
    ((applyCommand (.catalog a) d).2).header.catalog = some a ∧
    (applyCommand (.catalog b) ((applyCommand (.catalog a) d).2)).1 =
      .error (syntaxErrorMsg (render (.catalog b))
        ("multiple `CATALOG` commands is not allowed".data)) ∧
    (applyCommand (.catalog b) ((applyCommand (.catalog a) d).2)).2.header.catalog = some a := by
  simp [applyCommand, h]

/-- C8 witness at a concrete document and values. -/
theorem c8_catalog_once_witness :
    emptyCuna.header.catalog = none ∧
    ((applyCommand (.catalog 5) emptyCuna).1 = .ok () ∧
      ((applyCommand (.catalog 5) emptyCuna).2).header.catalog = some 5 ∧
      (applyCommand (.catalog 7) ((applyCommand (.catalog 5) emptyCuna).2)).1 =
        .error (syntaxErrorMsg (render (.catalog 7))
          ("multiple `CATALOG` commands is not allowed".data)) ∧
      (applyCommand (.catalog 7) ((applyCommand (.catalog 5) emptyCuna).2)).2.header.catalog = some 5) :=
  ⟨rfl, c8_catalog_once emptyCuna 5 7 rfl⟩

/-- C9: whenever the builder rejects a command, the document comes back
exactly as it was; in particular `INDEX` with no open track fails with
the out-of-scope `UnexpectedToken("INDEX")` error and mutates nothing. -/
theorem c9_error_unchanged :
    (∀ (c : Command) (d : Cuna) (e : ParseError),
      (applyCommand c d).1 = .error e → (applyCommand c d).2 = d) ∧
    (∀ (d : Cuna) (i : Nat) (ts : TimeStamp), d.lastTrack? = none →
      applyCommand (.index i ts) d = (.error (.unexpectedToken ("INDEX".data)), d)) := by
  constructor
  · intro c d e h
    cases c <;> simp only [applyCommand] at h ⊢ <;>
      (try repeat' split at h) <;> simp_all
  · intro d i ts h
    simp [applyCommand, h]

/-- C9 witness: a duplicate `CATALOG` error leaves a concrete document
unchanged, and `INDEX` on the empty document fails out of scope. -/
theorem c9_error_unchanged_witness :
    ((applyCommand (Command.catalog 2) ⟨⟨none, none, none, some 1, none⟩, [], []⟩).1 =
        .error (syntaxErrorMsg (render (Command.catalog 2))
          ("multiple `CATALOG` commands is not allowed".data)) ∧
      (applyCommand (Command.catalog 2) ⟨⟨none, none, none, some 1, none⟩, [], []⟩).2 =
        ⟨⟨none, none, none, some 1, none⟩, [], []⟩) ∧
    (emptyCuna.lastTrack? = none ∧
      applyCommand (Command.index 1 ⟨0, 0, 0⟩) emptyCuna =
        (.error (.unexpectedToken ("INDEX".data)), emptyCuna)) :=
  ⟨⟨by decide,
      c9_error_unchanged.1 (Command.catalog 2) ⟨⟨none, none, none, some 1, none⟩, [], []⟩
        (syntaxErrorMsg (render (Command.catalog 2))
          ("multiple `CATALOG` commands is not allowed".data)) (by decide)⟩,
    ⟨by decide, c9_error_unchanged.2 emptyCuna 1 ⟨0, 0, 0⟩ (by decide)⟩⟩

/-- C7: with an open track and a well-formed time stamp, `PREGAP`
succeeds exactly when the track's index list is empty and its pregap is
unset; after an `INDEX` it fails with the ordering syntax error, a second
`PREGAP` fails with the duplicate syntax error, and with no open track it
fails with the out-of-scope `UnexpectedToken("PREGAP")` error. -/
theorem c7_pregap_rules :
    (∀ (d : Cuna) (tk : Track) (s : Str) (t : TimeStamp),
      d.lastTrack? = some tk → parseTimeStamp s = .ok t →
      ((applyCommand (.pregap s) d).1 = .ok () ↔ tk.index = [] ∧ tk.pregap = none)) ∧
    (∀ (d : Cuna) (tk : Track) (s : Str),
      d.lastTrack? = some tk → tk.index ≠ [] →
      applyCommand (.pregap s) d =
        (.error (syntaxErrorMsg (render (.pregap s))
          ("Command `PREGAP` should be before `INDEX`".data)), d)) ∧
    (∀ (d : Cuna) (tk : Track) (s : Str) (t : TimeStamp),
      d.lastTrack? = some tk → tk.index = [] → tk.pregap = some t →
      applyCommand (.pregap s) d =
        (.error (syntaxErrorMsg (render (.pregap s))
          ("Multiple `PREGAP` commands are not allowed in one `TRACK` scope".data)), d)) ∧
    (∀ (d : Cuna) (s : Str), d.lastTrack? = none →
      applyCommand (.pregap s) d = (.error (.unexpectedToken ("PREGAP".data)), d)) := by
  refine ⟨?_, ?_, ?_, ?_⟩
  · intro d tk s t hlt hts
    simp only [applyCommand, hlt]
    constructor
    · intro h
      by_contra hc
      rw [if_neg hc] at h
      split at h <;> simp_all
    · intro hc
      rw [if_pos hc, hts]
  · intro d tk s hlt hidx
    have hc : ¬(tk.index = [] ∧ tk.pregap = none) := by simp [hidx]
    simp only [applyCommand, hlt, if_neg hc, if_pos hidx]
  · intro d tk s t hlt hidx hpre
    have hc : ¬(tk.index = [] ∧ tk.pregap = none) := by simp [hidx, hpre]
    have hc2 : ¬tk.index ≠ [] := by simp [hidx]
    simp only [applyCommand, hlt, if_neg hc, if_neg hc2]
  · intro d s h
    simp [applyCommand, h]

/-- C7 witness: the four rules at concrete documents — a fresh track, a
track with an index, a track with a pregap, and the empty document. -/
theorem c7_pregap_rules_witness :
    (docOneTrack.lastTrack? = some (Track.mkNew 1 ("AUDIO".data)) ∧
      parseTimeStamp ("00:02:00".data) = .ok ⟨0, 2, 0⟩ ∧
      ((applyCommand (.pregap ("00:02:00".data)) docOneTrack).1 = .ok () ↔
        (Track.mkNew 1 ("AUDIO".data)).index = [] ∧ (Track.mkNew 1 ("AUDIO".data)).pregap = none)) ∧
    (docTrackIndexed.lastTrack? =
        some { Track.mkNew 1 ("AUDIO".data) with index := [⟨1, ⟨0, 0, 0⟩⟩] } ∧
      applyCommand (.pregap ("00:02:00".data)) docTrackIndexed =
        (.error (syntaxErrorMsg (render (.pregap ("00:02:00".data)))
          ("Command `PREGAP` should be before `INDEX`".data)), docTrackIndexed)) ∧
    (docTrackPregapped.lastTrack? =
        some { Track.mkNew 1 ("AUDIO".data) with pregap := some ⟨0, 2, 0⟩ } ∧
      applyCommand (.pregap ("00:02:00".data)) docTrackPregapped =
        (.error (syntaxErrorMsg (render (.pregap ("00:02:00".data)))
          ("Multiple `PREGAP` commands are not allowed in one `TRACK` scope".data)), docTrackPregapped)) ∧
    (emptyCuna.lastTrack? = none ∧
      applyCommand (.pregap ("00:02:00".data)) emptyCuna =
        (.error (.unexpectedToken ("PREGAP".data)), emptyCuna)) :=
  ⟨⟨by decide, by decide,
      c7_pregap_rules.1 docOneTrack (Track.mkNew 1 ("AUDIO".data)) ("00:02:00".data) ⟨0, 2, 0⟩
        (by decide) (by decide)⟩,
    ⟨by decide,
      c7_pregap_rules.2.1 docTrackIndexed
        { Track.mkNew 1 ("AUDIO".data) with index := [⟨1, ⟨0, 0, 0⟩⟩] }
        ("00:02:00".data) (by decide) (by decide)⟩,
    ⟨by decide,
      c7_pregap_rules.2.2.1 docTrackPregapped
        { Track.mkNew 1 ("AUDIO".data) with pregap := some ⟨0, 2, 0⟩ }
        ("00:02:00".data) ⟨0, 2, 0⟩ (by decide) (by decide) (by decide)⟩,
    ⟨by decide, c7_pregap_rules.2.2.2 emptyCuna ("00:02:00".data) (by decide)⟩⟩

/-- C2 counterexample: `TITLE ""a""` is the renderer's own output for the
title value `"a"` (canonical keyword case, the renderer's quoting), yet
parsing it and re-rendering yields `TITLE "a"`, not the original line. -/
theorem c2_counterexample :
    render (Command.title ("\"a\"".data)) = ("TITLE \"\"a\"\"".data) ∧
    commandNew ("TITLE \"\"a\"\"".data) = .ok (Command.title ("a".data)) ∧
    render (Command.title ("a".data)) ≠ ("TITLE \"\"a\"\"".data) := by
  decide

/-- C3 counterexample: a `CATALOG` whose content is 13 digits followed by
further characters parses successfully (the trailing `abc` is ignored),
instead of failing with a syntax error. -/
theorem c3_counterexample :
    commandNew ("CATALOG 1234567890123abc".data) = .ok (.catalog 1234567890123) := by
  decide

/-- C4 counterexample: a `FILE` line with no format token parses
successfully, with the whole content as the path and an empty format. -/
theorem c4_counterexample :
    commandNew ("FILE abc".data) = .ok (.file ("abc".data) []) := by
  decide

-- ------------------------------------------------------------------
-- general lemmas about the string primitives
-- ------------------------------------------------------------------

theorem trimLeft_cons (c : Char) (l : Str) (h : c.isWhitespace = false) :
    trimLeft (c :: l) = c :: l := by
  simp [trimLeft, List.dropWhile_cons, h]

theorem trimRight_concat (a : Str) (c : Char) (h : c.isWhitespace = false) :
    trimRight (a ++ [c]) = a ++ [c] := by
  simp [trimRight, List.dropWhile_cons, h]

theorem trimRight_append_of (a b : Str) (hb : b ≠ []) (h : trimRight b = b) :
    trimRight (a ++ b) = a ++ b := by
  have hrd : List.rdropWhile (fun c => c.isWhitespace) b = b := h
  rw [List.rdropWhile_eq_self_iff] at hrd
  have hlast : (b.getLast hb).isWhitespace = false := by
    simpa using hrd hb
  have hb2 : b.dropLast ++ [b.getLast hb] = b := List.dropLast_append_getLast hb
  calc trimRight (a ++ b) = trimRight ((a ++ b.dropLast) ++ [b.getLast hb]) := by
        rw [List.append_assoc, hb2]
    _ = (a ++ b.dropLast) ++ [b.getLast hb] := trimRight_concat _ _ hlast
    _ = a ++ b := by rw [List.append_assoc, hb2]

theorem trim_cons_of (c : Char) (l : Str) (hc : c.isWhitespace = false)
    (h : trimRight (c :: l) = c :: l) : trim (c :: l) = c :: l := by
  unfold trim
  rw [trimLeft_cons c l hc, h]

theorem splitAtChar_append (c : Char) (pre rest : Str) (h : ∀ x ∈ pre, x ≠ c) :
    splitAtChar c (pre ++ c :: rest) = some (pre, rest) := by
  induction pre with
  | nil => simp [splitAtChar]
  | cons x xs ih =>
    have hx : x ≠ c := h x (by simp)
    simp only [List.cons_append, splitAtChar, if_neg hx]
    rw [show xs.append (c :: rest) = xs ++ c :: rest from rfl,
      ih (fun y hy => h y (by simp [hy]))]

theorem token_append (pre rest : Str) (h : ∀ x ∈ pre, x ≠ ' ') :
    token (pre ++ ' ' :: rest) = some (rest, pre) := by
  simp [token, splitAtChar_append ' ' pre rest h]

theorem dropWhileQ_of_headNotQ (l : Str) (h : headNotQ l = true) :
    l.dropWhile (fun c => c = '"') = l := by
  cases l with
  | nil => rfl
  | cons c t =>
    simp only [headNotQ, List.head?_cons, bne_iff_ne, ne_eq] at h
    simp [List.dropWhile_cons, h]

theorem dropWhileQ_rev_of_lastNotQ (l : Str) (h : lastNotQ l = true) :
    l.reverse.dropWhile (fun c => c = '"') = l.reverse := by
  apply dropWhileQ_of_headNotQ
  cases k : l.getLast? with
  | none =>
    simp only [List.getLast?_eq_none_iff] at k
    subst k
    rfl
  | some c =>
    simp only [lastNotQ, k] at h
    rw [← List.head?_reverse] at k
    simp [headNotQ, k, h]

theorem trimQuotes_of (l : Str) (h1 : headNotQ l = true) (h2 : lastNotQ l = true) :
    trimQuotes l = l := by
  unfold trimQuotes
  rw [dropWhileQ_of_headNotQ l h1, dropWhileQ_rev_of_lastNotQ l h2, List.reverse_reverse]

theorem trimQuotes_quoted (t : Str) (h1 : headNotQ t = true) (h2 : lastNotQ t = true) :
    trimQuotes ('"' :: (t ++ [('"' : Char)])) = t := by
  unfold trimQuotes
  have hd : ('"' :: (t ++ [('"' : Char)])).dropWhile (fun c => c = '"') =
      (t ++ [('"' : Char)]).dropWhile (fun c => c = '"') := by
    simp [List.dropWhile_cons]
  rw [hd]
  cases t with
  | nil => rfl
  | cons c ts =>
    simp only [headNotQ, List.head?_cons, bne_iff_ne, ne_eq] at h1
    rw [List.cons_append, List.dropWhile_cons, if_neg (by simpa using h1),
      ← List.cons_append]
    have hrev : ((c :: ts) ++ [('"' : Char)]).reverse = '"' :: (c :: ts).reverse := by
      simp
    rw [hrev, List.dropWhile_cons, if_pos (by simp),
      dropWhileQ_rev_of_lastNotQ (c :: ts) h2, List.reverse_reverse]

/-- C3 (amended): a `CATALOG` line parses successfully exactly when the
maximal leading digit run of its content is exactly 13 digits long — the
parsed value is that run, and anything after it is silently ignored;
otherwise it fails with the `invaild catalog` syntax error.  (The
hypotheses say the content is non-blank and carries no trailing
whitespace, so the line's own trimming does not alter it.) -/
theorem c3_catalog (content : Str) (h1 : content ≠ []) (h2 : trimRight content = content) :
    (commandNew (("CATALOG ".data) ++ content) =
        .ok (.catalog (digitsToNat (leadingDigits content))) ↔
      (leadingDigits content).length = 13) ∧
    ((leadingDigits content).length ≠ 13 →
      commandNew (("CATALOG ".data) ++ content) =
        .error (syntaxErrorMsg content ("invaild catalog".data))) := by
  have hline : (("CATALOG ".data : Str) ++ content) = 'C' :: (("ATALOG ".data) ++ content) := rfl
  have htrim : trim (("CATALOG ".data) ++ content) = ("CATALOG ".data) ++ content := by
    rw [hline]
    apply trim_cons_of _ _ (by decide)
    rw [← hline]
    exact trimRight_append_of _ content h1 h2
  have htok : token (("CATALOG ".data) ++ content) = some (content, ("CATALOG".data)) := by
    rw [show (("CATALOG ".data : Str) ++ content) = ("CATALOG".data) ++ ' ' :: content from rfl]
    exact token_append _ _ (by decide)
  have hne : (("CATALOG ".data : Str) ++ content) ≠ [] := by rw [hline]; simp
  simp only [commandNew, htrim, if_neg hne, htok]
  have hdis : ∀ r : Except ParseError Command, catalogArm content = r →
      dispatchCmd (("CATALOG".data)) content = r := fun _ h => Eq.trans rfl h
  constructor
  · constructor
    · intro h
      by_contra hl
      have h2 := hdis (.error (syntaxErrorMsg content (("invaild catalog".data))))
        (by simp [catalogArm, number, hl])
      exact absurd (h.symm.trans h2) (by simp)
    · intro hl
      exact hdis _ (by simp [catalogArm, number, hl])
  · intro hl
    exact hdis _ (by simp [catalogArm, number, hl])

/-- C3 witness: the amended characterisation evaluated at the content
`1234567890123abc` (13 leading digits, then junk). -/
theorem c3_catalog_witness :
    (("1234567890123abc".data : Str) ≠ [] ∧
      trimRight ("1234567890123abc".data) = ("1234567890123abc".data)) ∧
    ((commandNew (("CATALOG ".data) ++ ("1234567890123abc".data)) =
        .ok (.catalog (digitsToNat (leadingDigits ("1234567890123abc".data)))) ↔
      (leadingDigits ("1234567890123abc".data)).length = 13) ∧
    ((leadingDigits ("1234567890123abc".data)).length ≠ 13 →
      commandNew (("CATALOG ".data) ++ ("1234567890123abc".data)) =
        .error (syntaxErrorMsg ("1234567890123abc".data) ("invaild catalog".data)))) :=
  ⟨⟨by decide, by decide⟩, c3_catalog ("1234567890123abc".data) (by decide) (by decide)⟩

/-- C4 (amended): a `FILE` line with non-blank content always parses: the
quoted name (if any) becomes the path and the trimmed remainder the
format; with no opening quote the whole content becomes the path and the
format is empty.  In particular no format token is required. -/
theorem c4_file_parses (content : Str) (h1 : content ≠ []) (h2 : trimRight content = content) :
    commandNew (("FILE ".data) ++ content) =
      .ok (.file (trimQuotes (quoteOpt content).2) (trim (quoteOpt content).1)) ∧
    (quote content = none →
      commandNew (("FILE ".data) ++ content) = .ok (.file (trimQuotes content) [])) := by
  have hline : (("FILE ".data : Str) ++ content) = 'F' :: (("ILE ".data) ++ content) := rfl
  have htrim : trim (("FILE ".data) ++ content) = ("FILE ".data) ++ content := by
    rw [hline]
    apply trim_cons_of _ _ (by decide)
    rw [← hline]
    exact trimRight_append_of _ content h1 h2
  have htok : token (("FILE ".data) ++ content) = some (content, ("FILE".data)) := by
    rw [show (("FILE ".data : Str) ++ content) = ("FILE".data) ++ ' ' :: content from rfl]
    exact token_append _ _ (by decide)
  have hne : (("FILE ".data : Str) ++ content) ≠ [] := by rw [hline]; simp
  simp only [commandNew, htrim, if_neg hne, htok]
  refine ⟨rfl, fun hq => ?_⟩
  have hqo : quoteOpt content = ([], content) := by simp [quoteOpt, hq]
  have harm : fileArm content = .ok (.file (trimQuotes content) []) := by
    simp [fileArm, hqo, trim, trimLeft, trimRight]
  exact Eq.trans (rfl : dispatchCmd (("FILE".data)) content = fileArm content) harm

/-- C4 witness: the amended statement at the unquoted, format-less
content `abc`. -/
theorem c4_file_parses_witness :
    (("abc".data : Str) ≠ [] ∧ trimRight ("abc".data) = ("abc".data)) ∧
    (commandNew (("FILE ".data) ++ ("abc".data)) =
        .ok (.file (trimQuotes (quoteOpt ("abc".data)).2) (trim (quoteOpt ("abc".data)).1)) ∧
      (quote ("abc".data) = none →
        commandNew (("FILE ".data) ++ ("abc".data)) = .ok (.file (trimQuotes ("abc".data)) []))) :=
  ⟨⟨by decide, by decide⟩, c4_file_parses ("abc".data) (by decide) (by decide)⟩

-- ------------------------------------------------------------------
-- decimal rendering: digits, lengths, round-trips
-- ------------------------------------------------------------------

theorem toDigitsRevGo_congr (n : Nat) : ∀ fuel, n < fuel → toDigitsRevGo n fuel = toDigitsRev n := by
  induction n using Nat.strong_induction_on with
  | _ n ih =>
    intro fuel h
    match fuel, h with
    | fuel + 1, h =>
      unfold toDigitsRev
      by_cases h10 : n < 10
      · simp [toDigitsRevGo, h10]
      · have hd : n / 10 < n := Nat.div_lt_self (by omega) (by norm_num)
        have e1 : toDigitsRevGo n (fuel + 1) = n % 10 :: toDigitsRevGo (n / 10) fuel := by
          simp [toDigitsRevGo, h10]
        have e2 : toDigitsRevGo n (n + 1) = n % 10 :: toDigitsRevGo (n / 10) n := by
          simp [toDigitsRevGo, h10]
        rw [e1, e2, ih (n / 10) hd fuel (by omega), ih (n / 10) hd n (by omega)]

theorem toDigitsRev_unfold (n : Nat) :
    toDigitsRev n = if n < 10 then [n] else n % 10 :: toDigitsRev (n / 10) := by
  by_cases h10 : n < 10
  · simp [toDigitsRev, toDigitsRevGo, h10]
  · have hd : n / 10 < n := Nat.div_lt_self (by omega) (by norm_num)
    have e : toDigitsRev n = n % 10 :: toDigitsRevGo (n / 10) n := by
      simp [toDigitsRev, toDigitsRevGo, h10]
    rw [e, toDigitsRevGo_congr (n / 10) n hd]
    simp [h10]

theorem toDigitsRev_ne_nil (n : Nat) : toDigitsRev n ≠ [] := by
  rw [toDigitsRev_unfold]
  split <;> simp

theorem toDigitsRev_mem_lt (n : Nat) : ∀ d ∈ toDigitsRev n, d < 10 := by
  induction n using Nat.strong_induction_on with
  | _ n ih =>
    rw [toDigitsRev_unfold]
    by_cases h10 : n < 10
    · simp [h10]
    · have hd : n / 10 < n := Nat.div_lt_self (by omega) (by norm_num)
      simp only [h10, if_false, List.mem_cons]
      rintro d (rfl | hm)
      · omega
      · exact ih (n / 10) hd d hm

theorem toDigitsRev_length_le (k : Nat) : ∀ n, (toDigitsRev n).length ≤ k + 1 ↔ n < 10 ^ (k + 1) := by
  induction k with
  | zero =>
    intro n
    rw [toDigitsRev_unfold]
    by_cases h10 : n < 10
    · simp [h10]
    · have := toDigitsRev_ne_nil (n / 10)
      have hp : 0 < (toDigitsRev (n / 10)).length := List.length_pos.mpr this
      simp only [h10, if_false, List.length_cons, pow_one]
      omega
  | succ k ihk =>
    intro n
    rw [toDigitsRev_unfold]
    by_cases h10 : n < 10
    · have h1 : (10 : Nat) ≤ 10 ^ (k + 1 + 1) := @Nat.le_self_pow (k + 1 + 1) (by omega) 10
      simp only [h10, if_true, List.length_singleton]
      constructor
      · intro _
        exact lt_of_lt_of_le h10 h1
      · intro _
        omega
    · simp only [h10, if_false, List.length_cons]
      have hrw : (toDigitsRev (n / 10)).length + 1 ≤ k + 1 + 1 ↔
          (toDigitsRev (n / 10)).length ≤ k + 1 := by omega
      rw [hrw, ihk (n / 10), Nat.div_lt_iff_lt_mul (by norm_num : (0:Nat) < 10)]
      rw [show (10:Nat) ^ (k + 1 + 1) = 10 ^ (k + 1) * 10 from pow_succ 10 (k + 1)]

theorem natToStr_length_le (k n : Nat) : (natToStr n).length ≤ k + 1 ↔ n < 10 ^ (k + 1) := by
  simp only [natToStr, List.length_reverse, List.length_map]
  exact toDigitsRev_length_le k n

theorem natToStr_ne_nil (n : Nat) : natToStr n ≠ [] := by
  simp [natToStr, toDigitsRev_ne_nil n]

theorem natToStr_length_eq (k n : Nat) (h1 : 10 ^ k ≤ n) (h2 : n < 10 ^ (k + 1)) :
    (natToStr n).length = k + 1 := by
  have u := (natToStr_length_le k n).mpr h2
  cases k with
  | zero =>
    have := natToStr_ne_nil n
    have hp : 0 < (natToStr n).length := List.length_pos.mpr this
    omega
  | succ j =>
    have l : ¬((natToStr n).length ≤ j + 1) := by
      rw [natToStr_length_le]
      omega
    omega

theorem digitChar_props (d : Nat) :
    (digitChar d).isDigit = true ∧ (digitChar d).isWhitespace = false ∧
      digitChar d ≠ ' ' ∧ digitChar d ≠ '"' ∧ digitChar d ≠ ':' := by
  match d with
  | 0 => decide
  | 1 => decide
  | 2 => decide
  | 3 => decide
  | 4 => decide
  | 5 => decide
  | 6 => decide
  | 7 => decide
  | 8 => decide
  | n + 9 =>
    have e : digitChar (n + 9) = '9' := rfl
    rw [e]
    decide

theorem digitChar_val (d : Nat) (h : d < 10) : (digitChar d).toNat - 48 = d := by
  interval_cases d <;> decide

theorem natToStr_props (n : Nat) :
    ∀ c ∈ natToStr n, c.isDigit = true ∧ c.isWhitespace = false ∧
      c ≠ ' ' ∧ c ≠ '"' ∧ c ≠ ':' := by
  intro c hc
  simp only [natToStr, List.mem_reverse, List.mem_map] at hc
  obtain ⟨d, _, rfl⟩ := hc
  exact digitChar_props d

theorem foldr_toDigitsRev (n : Nat) :
    (toDigitsRev n).foldr (fun d a => 10 * a + d) 0 = n := by
  induction n using Nat.strong_induction_on with
  | _ n ih =>
    rw [toDigitsRev_unfold]
    by_cases h10 : n < 10
    · simp [h10]
    · have hd : n / 10 < n := Nat.div_lt_self (by omega) (by norm_num)
      simp only [h10, if_false, List.foldr_cons]
      rw [ih (n / 10) hd]
      omega

theorem digitsToNat_natToStr (n : Nat) : digitsToNat (natToStr n) = n := by
  unfold digitsToNat natToStr
  rw [List.foldl_reverse, List.foldr_map]
  have key : ∀ l : List Nat, (∀ d ∈ l, d < 10) →
      l.foldr (fun d a => 10 * a + ((digitChar d).toNat - 48)) 0 =
        l.foldr (fun d a => 10 * a + d) 0 := by
    intro l hl
    induction l with
    | nil => rfl
    | cons x xs ihx =>
      simp only [List.foldr_cons]
      rw [digitChar_val x (hl x (by simp)), ihx (fun d hd => hl d (by simp [hd]))]
  rw [key _ (toDigitsRev_mem_lt n), foldr_toDigitsRev]

theorem trimLeft_of_headNotWs (l : Str) (h : headNotWs l = true) : trimLeft l = l := by
  cases l with
  | nil => rfl
  | cons c t =>
    simp only [headNotWs, List.head?_cons, Bool.not_eq_true'] at h
    simp [trimLeft, List.dropWhile_cons, h]

theorem trimRight_of_lastNotWs (l : Str) (h : lastNotWs l = true) : trimRight l = l := by
  show List.rdropWhile (fun c => c.isWhitespace) l = l
  rw [List.rdropWhile_eq_self_iff]
  intro hl
  have hk : l.getLast? = some (l.getLast hl) := List.getLast?_eq_getLast l hl
  simp only [lastNotWs, hk, Bool.not_eq_true'] at h
  simp [h]

theorem trim_eq_of (l : Str) (h1 : headNotWs l = true) (h2 : lastNotWs l = true) :
    trim l = l := by
  unfold trim
  rw [trimLeft_of_headNotWs l h1, trimRight_of_lastNotWs l h2]

theorem lastNotWs_append (a b : Str) (hb : b ≠ []) :
    lastNotWs (a ++ b) = lastNotWs b := by
  simp [lastNotWs, List.getLast?_append_of_ne_nil a hb]

theorem lastNotWs_concat (a : Str) (c : Char) : lastNotWs (a ++ [c]) = !c.isWhitespace := by
  simp [lastNotWs, List.getLast?_concat]

theorem leadingDigits_eq_self (l : Str) (h : ∀ c ∈ l, c.isDigit = true) :
    leadingDigits l = l := by
  unfold leadingDigits
  induction l with
  | nil => rfl
  | cons c t ih =>
    rw [List.takeWhile_cons, if_pos (h c (by simp)), ih (fun x hx => h x (by simp [hx]))]

theorem number_natToStr (k id : Nat) (h1 : 10 ^ k ≤ id) (h2 : id < 10 ^ (k + 1)) :
    number (k + 1) (natToStr id) = some ([], id) := by
  have hd : leadingDigits (natToStr id) = natToStr id :=
    leadingDigits_eq_self _ (fun c hc => (natToStr_props id c hc).1)
  have hlen : (natToStr id).length = k + 1 := natToStr_length_eq k id h1 h2
  have hnum : number (k + 1) (natToStr id) =
      if (leadingDigits (natToStr id)).length = k + 1 then
        some ((natToStr id).drop (k + 1), digitsToNat (leadingDigits (natToStr id)))
      else none := rfl
  rw [hnum, hd, hlen, if_pos rfl, digitsToNat_natToStr,
    List.drop_eq_nil_of_le (le_of_eq hlen)]

theorem pad2_length (v : Nat) (h : v ≤ 99) : (pad2 v).length = 2 := by
  unfold pad2
  by_cases h10 : v < 10
  · have : (natToStr v).length = 1 := by
      have u := (natToStr_length_le 0 v).mpr (by simpa using h10)
      have := natToStr_ne_nil v
      have hp : 0 < (natToStr v).length := List.length_pos.mpr this
      omega
    simp [h10, this]
  · have : (natToStr v).length = 2 := natToStr_length_eq 1 v (by omega) (by norm_num; omega)
    simp [h10, this]

theorem pad2_props (v : Nat) :
    ∀ c ∈ pad2 v, c.isDigit = true ∧ c.isWhitespace = false ∧
      c ≠ ' ' ∧ c ≠ '"' ∧ c ≠ ':' := by
  intro c hc
  unfold pad2 at hc
  by_cases h10 : v < 10
  · simp only [h10, if_true, List.mem_cons] at hc
    rcases hc with rfl | hc
    · exact ⟨by decide, by decide, by decide, by decide, by decide⟩
    · exact natToStr_props v c hc
  · simp only [h10, if_false] at hc
    exact natToStr_props v c hc

theorem pad2_ne_nil (v : Nat) : pad2 v ≠ [] := by
  unfold pad2
  split
  · simp
  · exact natToStr_ne_nil v

theorem digitsToNat_pad2 (v : Nat) (h : v < 100) : digitsToNat (pad2 v) = v := by
  unfold pad2
  by_cases h10 : v < 10
  · have e : natToStr v = [digitChar v] := by
      simp [natToStr, toDigitsRev_unfold, h10]
    rw [if_pos h10, e]
    simp only [digitsToNat, List.foldl_cons, List.foldl_nil]
    rw [show ('0' : Char).toNat - 48 = 0 from by decide, digitChar_val v (by omega)]
    omega
  · rw [if_neg h10]
    exact digitsToNat_natToStr v

theorem parseTimeStamp_displayTS (t : TimeStamp) (hm : t.minutes ≤ 99)
    (hs : t.seconds ≤ 59) (hf : t.frames ≤ 74) :
    parseTimeStamp (displayTS t) = .ok t := by
  have hm2 := pad2_length t.minutes hm
  have hs2 := pad2_length t.seconds (by omega)
  have hf2 := pad2_length t.frames (by omega)
  have hline : displayTS t =
      pad2 t.minutes ++ ':' :: (pad2 t.seconds ++ ':' :: pad2 t.frames) := by
    simp [displayTS]
  have hsp1 : splitAtChar ':' (pad2 t.minutes ++ ':' :: (pad2 t.seconds ++ ':' :: pad2 t.frames)) =
      some (pad2 t.minutes, pad2 t.seconds ++ ':' :: pad2 t.frames) :=
    splitAtChar_append ':' _ _ (fun x hx => (pad2_props t.minutes x hx).2.2.2.2)
  have hsp2 : splitAtChar ':' (pad2 t.seconds ++ ':' :: pad2 t.frames) =
      some (pad2 t.seconds, pad2 t.frames) :=
    splitAtChar_append ':' _ _ (fun x hx => (pad2_props t.seconds x hx).2.2.2.2)
  unfold parseTimeStamp
  rw [hline, hsp1]
  simp only [hsp2]
  rw [if_pos]
  · rw [digitsToNat_pad2 t.minutes (by omega), digitsToNat_pad2 t.seconds (by omega),
      digitsToNat_pad2 t.frames (by omega)]
  · refine ⟨hm2, hs2, hf2, ?_, ?_, ?_, ?_, ?_⟩
    · rw [List.all_eq_true]
      exact fun x hx => (pad2_props t.minutes x hx).1
    · rw [List.all_eq_true]
      exact fun x hx => (pad2_props t.seconds x hx).1
    · rw [List.all_eq_true]
      exact fun x hx => (pad2_props t.frames x hx).1
    · rw [digitsToNat_pad2 t.seconds (by omega)]
      omega
    · rw [digitsToNat_pad2 t.frames (by omega)]
      omega

theorem noQuote_head (l : Str) (h : noQuote l = true) : headNotQ l = true := by
  cases l with
  | nil => rfl
  | cons c t =>
    simp only [noQuote, List.all_cons, Bool.and_eq_true] at h
    simp [headNotQ, h.1]

theorem noQuote_last (l : Str) (h : noQuote l = true) : lastNotQ l = true := by
  cases k : l.getLast? with
  | none => simp [lastNotQ, k]
  | some c =>
    have hc : c ∈ l := by
      have hx : c ∈ l.getLast? := by simp [k]
      obtain ⟨hne, he⟩ := List.mem_getLast?_eq_getLast hx
      rw [he]
      exact List.getLast_mem hne
    simp only [noQuote, List.all_eq_true] at h
    simp [lastNotQ, k, h c hc]

theorem lastNotWs_of_forall (l : Str) (h : ∀ c ∈ l, c.isWhitespace = false) :
    lastNotWs l = true := by
  cases k : l.getLast? with
  | none => simp [lastNotWs, k]
  | some c =>
    have hc : c ∈ l := by
      have hx : c ∈ l.getLast? := by simp [k]
      obtain ⟨hne, he⟩ := List.mem_getLast?_eq_getLast hx
      rw [he]
      exact List.getLast_mem hne
    simp [lastNotWs, k, h c hc]

theorem trimRight_concat_ws (a : Str) (c : Char) (h : c.isWhitespace = false) :
    trimRight ((a ++ [c]) ++ [' ']) = a ++ [c] := by
  simp [trimRight, List.dropWhile_cons, h]

theorem trimLeft_cons_space (l : Str) : trimLeft (' ' :: l) = trimLeft l := by
  simp [trimLeft, List.dropWhile_cons]

/-- Splitting one line into keyword and content, provided trimming is the
identity on it. -/
theorem commandNew_split (kw content : Str) (hkw : ∀ x ∈ kw, x ≠ ' ')
    (h1 : trim (kw ++ ' ' :: content) = kw ++ ' ' :: content) :
    commandNew (kw ++ ' ' :: content) = dispatchCmd kw content := by
  have h2 : (kw ++ ' ' :: content : Str) ≠ [] := by simp
  simp only [commandNew, h1, if_neg h2, token_append kw content hkw]

/-- The quote-wrapping variants (`TITLE`, `PERFORMER`, `SONGWRITER`,
`CDTEXTFILE`): rendered with surrounding quotes, re-parsed by stripping
edge quotes. -/
theorem parse_render_quoted (kw s : Str) (F : Str → Command)
    (hkw : ∀ x ∈ kw, x ≠ ' ')
    (hk0 : headNotWs (kw ++ ' ' :: ('"' :: (s ++ [('"' : Char)]))) = true)
    (h1 : headNotQ s = true) (h2 : lastNotQ s = true)
    (harm : dispatchCmd kw ('"' :: (s ++ [('"' : Char)])) =
      .ok (F (trimQuotes ('"' :: (s ++ [('"' : Char)]))))) :
    commandNew (kw ++ ' ' :: ('"' :: (s ++ [('"' : Char)]))) = .ok (F s) := by
  have htrim : trim (kw ++ ' ' :: ('"' :: (s ++ [('"' : Char)]))) =
      kw ++ ' ' :: ('"' :: (s ++ [('"' : Char)])) := by
    apply trim_eq_of _ hk0
    rw [show (kw ++ ' ' :: ('"' :: (s ++ [('"' : Char)])) : Str) =
        (kw ++ ' ' :: '"' :: s) ++ [('"' : Char)] from by simp, lastNotWs_concat]
    decide
  rw [commandNew_split kw _ hkw htrim, harm, trimQuotes_quoted s h1 h2]

/-- The verbatim variants (`PREGAP`, `POSTGAP`, `ISRC`, `FLAG`): content
taken as is, with edge quotes stripped. -/
theorem parse_render_verbatim (kw s : Str) (F : Str → Command)
    (hkw : ∀ x ∈ kw, x ≠ ' ') (hk0 : headNotWs (kw ++ ' ' :: s) = true)
    (hs : s ≠ []) (hlw : lastNotWs s = true) (h1 : headNotQ s = true) (h2 : lastNotQ s = true)
    (harm : dispatchCmd kw s = .ok (F (trimQuotes s))) :
    commandNew (kw ++ ' ' :: s) = .ok (F s) := by
  have htrim : trim (kw ++ ' ' :: s) = kw ++ ' ' :: s := by
    apply trim_eq_of _ hk0
    rw [show (kw ++ ' ' :: s : Str) = (kw ++ [' ']) ++ s from by simp,
      lastNotWs_append _ s hs]
    exact hlw
  rw [commandNew_split kw _ hkw htrim, harm, trimQuotes_of s h1 h2]

theorem number2_natToStr (id : Nat) (h1 : 10 ≤ id) (h2 : id ≤ 99) :
    number 2 (natToStr id) = some ([], id) := by
  rw [show (2 : Nat) = 1 + 1 from rfl]
  exact number_natToStr 1 id (by simpa using h1) (by norm_num; omega)

theorem displayTS_ne_nil (t : TimeStamp) : displayTS t ≠ [] := by
  unfold displayTS
  intro k
  rcases List.append_eq_nil.mp k with ⟨k1, -⟩
  rcases List.append_eq_nil.mp k1 with ⟨k2, -⟩
  rcases List.append_eq_nil.mp k2 with ⟨k3, -⟩
  rcases List.append_eq_nil.mp k3 with ⟨k4, -⟩
  exact pad2_ne_nil t.minutes k4

theorem lastNotWs_displayTS (t : TimeStamp) : lastNotWs (displayTS t) = true := by
  unfold displayTS
  rw [lastNotWs_append _ _ (pad2_ne_nil t.frames)]
  exact lastNotWs_of_forall _ (fun c hc => (pad2_props t.frames c hc).2.1)

/-- Every canonical command parses back from its own rendering.  This is
the and-then-some core of the round-trip law: on canonical commands,
`parse` is a left inverse of `render`. -/
theorem parse_render (c : Command) (h : canonicalCmd c = true) :
    commandNew (render c) = .ok c := by
  cases c with
  | rem s =>
    simp only [canonicalCmd, Bool.and_eq_true] at h
    have hs : s ≠ [] := by
      intro k
      subst k
      simp at h
    show commandNew (("REM".data) ++ ' ' :: s) = .ok (.rem s)
    have htrim : trim (("REM".data) ++ ' ' :: s) = ("REM".data) ++ ' ' :: s := by
      apply trim_eq_of _ (by rfl)
      rw [show (("REM".data : Str) ++ ' ' :: s) = (("REM".data) ++ [' ']) ++ s from by simp,
        lastNotWs_append _ s hs]
      exact h.2
    rw [commandNew_split _ _ (by decide) htrim]
    rfl
  | title s =>
    simp only [canonicalCmd, Bool.and_eq_true] at h
    show commandNew (("TITLE".data) ++ ' ' :: ('"' :: (s ++ [('"' : Char)]))) = .ok (.title s)
    exact parse_render_quoted _ s Command.title (by decide) (by rfl) h.1 h.2 rfl
  | performer s =>
    simp only [canonicalCmd, Bool.and_eq_true] at h
    show commandNew (("PERFORMER".data) ++ ' ' :: ('"' :: (s ++ [('"' : Char)]))) =
      .ok (.performer s)
    exact parse_render_quoted _ s Command.performer (by decide) (by rfl) h.1 h.2 rfl
  | songwriter s =>
    simp only [canonicalCmd, Bool.and_eq_true] at h
    show commandNew (("SONGWRITER".data) ++ ' ' :: ('"' :: (s ++ [('"' : Char)]))) =
      .ok (.songwriter s)
    exact parse_render_quoted _ s Command.songwriter (by decide) (by rfl) h.1 h.2 rfl
  | cdtextfile s =>
    simp only [canonicalCmd, Bool.and_eq_true] at h
    show commandNew (("CDTEXTFILE".data) ++ ' ' :: ('"' :: (s ++ [('"' : Char)]))) =
      .ok (.cdtextfile s)
    exact parse_render_quoted _ s Command.cdtextfile (by decide) (by rfl) h.1 h.2 rfl
  | catalog n =>
    simp only [canonicalCmd, Bool.and_eq_true, decide_eq_true_eq] at h
    obtain ⟨hb1, hb2⟩ := h
    show commandNew (("CATALOG".data) ++ ' ' :: natToStr n) = .ok (.catalog n)
    have hne := natToStr_ne_nil n
    have htrim : trim (("CATALOG".data) ++ ' ' :: natToStr n) =
        ("CATALOG".data) ++ ' ' :: natToStr n := by
      apply trim_eq_of _ (by rfl)
      rw [show (("CATALOG".data : Str) ++ ' ' :: natToStr n) =
          (("CATALOG".data) ++ [' ']) ++ natToStr n from by simp,
        lastNotWs_append _ _ hne]
      exact lastNotWs_of_forall _ (fun c hc => (natToStr_props n c hc).2.1)
    rw [commandNew_split _ _ (by decide) htrim]
    have harm : catalogArm (natToStr n) = .ok (.catalog n) := by
      unfold catalogArm
      rw [show (13 : Nat) = 12 + 1 from rfl, number_natToStr 12 n hb1 hb2]
    exact Eq.trans rfl harm
  | file name fmt =>
    simp only [canonicalCmd, Bool.and_eq_true] at h
    obtain ⟨hnq, hfmt⟩ := h
    have hnq' : ∀ x ∈ name, x ≠ ('"' : Char) := by
      intro x hx
      have := List.all_eq_true.mp hnq x hx
      simpa using this
    have hquoted : ∀ rest : Str, quote ('"' :: (name ++ '"' :: rest)) = some (rest, name) := by
      intro rest
      show (splitAtChar '"' (name ++ '"' :: rest)).map (fun p => (p.2, p.1)) = some (rest, name)
      rw [splitAtChar_append '"' name rest hnq']
      rfl
    by_cases hfe : fmt = []
    · subst hfe
      have hr : render (Command.file name []) =
          (((("FILE \"".data) ++ name) ++ [('"' : Char)]) ++ [' ']) := by
        simp [render]
      rw [hr]
      have htr : trim (((("FILE \"".data) ++ name) ++ [('"' : Char)]) ++ [' ']) =
          ("FILE".data) ++ ' ' :: ('"' :: (name ++ [('"' : Char)])) := by
        unfold trim
        rw [trimLeft_of_headNotWs _ (by rfl), trimRight_concat_ws _ _ (by decide)]
        simp
      have h2 : ((((("FILE \"".data) ++ name) ++ [('"' : Char)]) ++ [' ']) : Str) ≠ [] := by simp
      simp only [commandNew, htr, if_neg h2,
        token_append (("FILE".data)) ('"' :: (name ++ [('"' : Char)])) (by decide)]
      have harm : fileArm ('"' :: (name ++ [('"' : Char)])) = .ok (.file name []) := by
        unfold fileArm quoteOpt
        rw [show (name ++ [('"' : Char)] : Str) = name ++ '"' :: [] from rfl]
        simp only [hquoted []]
        rw [trimQuotes_of name (noQuote_head name hnq) (noQuote_last name hnq)]
        rfl
      exact Eq.trans rfl harm
    · have hhl : headNotWs fmt = true ∧ lastNotWs fmt = true := by
        cases fmt with
        | nil => exact absurd rfl hfe
        | cons a b =>
          simp only [List.isEmpty_cons, Bool.false_or, Bool.and_eq_true] at hfmt
          exact hfmt
      have hr : render (Command.file name fmt) =
          ("FILE".data) ++ ' ' :: ('"' :: (name ++ '"' :: ' ' :: fmt)) := by
        simp [render]
      rw [hr]
      have htrim : trim (("FILE".data) ++ ' ' :: ('"' :: (name ++ '"' :: ' ' :: fmt))) =
          ("FILE".data) ++ ' ' :: ('"' :: (name ++ '"' :: ' ' :: fmt)) := by
        apply trim_eq_of _ (by rfl)
        rw [show (("FILE".data : Str) ++ ' ' :: ('"' :: (name ++ '"' :: ' ' :: fmt))) =
            (("FILE".data) ++ ' ' :: '"' :: name ++ ['"', ' ']) ++ fmt from by simp,
          lastNotWs_append _ _ hfe]
        exact hhl.2
      rw [commandNew_split _ _ (by decide) htrim]
      have harm : fileArm ('"' :: (name ++ '"' :: ' ' :: fmt)) = .ok (.file name fmt) := by
        unfold fileArm quoteOpt
        simp only [hquoted (' ' :: fmt)]
        rw [trimQuotes_of name (noQuote_head name hnq) (noQuote_last name hnq)]
        have : trim (' ' :: fmt) = fmt := by
          unfold trim
          rw [trimLeft_cons_space, trimLeft_of_headNotWs fmt hhl.1,
            trimRight_of_lastNotWs fmt hhl.2]
        rw [this]
      exact Eq.trans rfl harm
  | track id fmt =>
    simp only [canonicalCmd, Bool.and_eq_true, decide_eq_true_eq] at h
    obtain ⟨⟨⟨hi1, hi2⟩, hf0⟩, hfl⟩ := h
    have hfe : fmt ≠ [] := by
      intro k
      subst k
      simp at hf0
    have hr : render (Command.track id fmt) =
        ("TRACK".data) ++ ' ' :: (natToStr id ++ ' ' :: fmt) := by
      simp [render]
    rw [hr]
    have hdig := natToStr_props id
    have htrim : trim (("TRACK".data) ++ ' ' :: (natToStr id ++ ' ' :: fmt)) =
        ("TRACK".data) ++ ' ' :: (natToStr id ++ ' ' :: fmt) := by
      apply trim_eq_of _ (by rfl)
      rw [show (("TRACK".data : Str) ++ ' ' :: (natToStr id ++ ' ' :: fmt)) =
          (("TRACK".data) ++ ' ' :: natToStr id ++ [' ']) ++ fmt from by simp,
        lastNotWs_append _ _ hfe]
      exact hfl
    rw [commandNew_split _ _ (by decide) htrim]
    have harm : trackArm (("TRACK".data)) (natToStr id ++ ' ' :: fmt) = .ok (.track id fmt) := by
      unfold trackArm
      rw [token_append _ _ (fun x hx => (hdig x hx).2.2.1)]
      simp only [number2_natToStr id hi1 hi2]
    exact Eq.trans rfl harm
  | index id ts =>
    simp only [canonicalCmd, Bool.and_eq_true, decide_eq_true_eq] at h
    obtain ⟨⟨⟨⟨hi1, hi2⟩, hm⟩, hs⟩, hf⟩ := h
    have hr : render (Command.index id ts) =
        ("INDEX".data) ++ ' ' :: (natToStr id ++ ' ' :: displayTS ts) := by
      simp [render]
    rw [hr]
    have hdig := natToStr_props id
    have htrim : trim (("INDEX".data) ++ ' ' :: (natToStr id ++ ' ' :: displayTS ts)) =
        ("INDEX".data) ++ ' ' :: (natToStr id ++ ' ' :: displayTS ts) := by
      apply trim_eq_of _ (by rfl)
      rw [show (("INDEX".data : Str) ++ ' ' :: (natToStr id ++ ' ' :: displayTS ts)) =
          (("INDEX".data) ++ ' ' :: natToStr id ++ [' ']) ++ displayTS ts from by simp,
        lastNotWs_append _ _ (displayTS_ne_nil ts)]
      exact lastNotWs_displayTS ts
    rw [commandNew_split _ _ (by decide) htrim]
    have harm : indexArm (("INDEX".data)) (natToStr id ++ ' ' :: displayTS ts) =
        .ok (.index id ts) := by
      unfold indexArm
      rw [token_append _ _ (fun x hx => (hdig x hx).2.2.1)]
      simp only [number2_natToStr id hi1 hi2, parseTimeStamp_displayTS ts hm hs hf]
    exact Eq.trans rfl harm
  | pregap s =>
    simp only [canonicalCmd, Bool.and_eq_true] at h
    obtain ⟨⟨⟨h0, hlw⟩, hq1⟩, hq2⟩ := h
    have hs : s ≠ [] := by
      intro k
      subst k
      simp at h0
    show commandNew (("PREGAP".data) ++ ' ' :: s) = .ok (.pregap s)
    exact parse_render_verbatim _ s Command.pregap (by decide) (by rfl) hs hlw hq1 hq2 rfl
  | postgap s =>
    simp only [canonicalCmd, Bool.and_eq_true] at h
    obtain ⟨⟨⟨h0, hlw⟩, hq1⟩, hq2⟩ := h
    have hs : s ≠ [] := by
      intro k
      subst k
      simp at h0
    show commandNew (("POSTGAP".data) ++ ' ' :: s) = .ok (.postgap s)
    exact parse_render_verbatim _ s Command.postgap (by decide) (by rfl) hs hlw hq1 hq2 rfl
  | isrc s =>
    simp only [canonicalCmd, Bool.and_eq_true] at h
    obtain ⟨⟨⟨h0, hlw⟩, hq1⟩, hq2⟩ := h
    have hs : s ≠ [] := by
      intro k
      subst k
      simp at h0
    show commandNew (("ISRC".data) ++ ' ' :: s) = .ok (.isrc s)
    exact parse_render_verbatim _ s Command.isrc (by decide) (by rfl) hs hlw hq1 hq2 rfl
  | flags s =>
    simp only [canonicalCmd, Bool.and_eq_true] at h
    obtain ⟨⟨⟨h0, hlw⟩, hq1⟩, hq2⟩ := h
    have hs : s ≠ [] := by
      intro k
      subst k
      simp at h0
    show commandNew (("FLAG".data) ++ ' ' :: s) = .ok (.flags s)
    exact parse_render_verbatim _ s Command.flags (by decide) (by rfl) hs hlw hq1 hq2 rfl

/-- C2 (amended): on a line in canonical form — the rendering of a
command whose fields survive quote/whitespace trimming and whose numeric
fields print at grammar width (`canonicalCmd`) — rendering the parsed
command reproduces the line exactly. -/
theorem c2_roundtrip (line : Str) (c c' : Command) (hl : line = render c)
    (h : canonicalCmd c = true) (hp : commandNew line = .ok c') :
    render c' = line := by
  subst hl
  rw [parse_render c h] at hp
  injection hp with h2
  rw [← h2]

/-- C2 witness: the round trip at the canonical line `TITLE "My Dearest"`. -/
theorem c2_roundtrip_witness :
    (render (Command.title ("My Dearest".data)) = render (Command.title ("My Dearest".data)) ∧
      canonicalCmd (Command.title ("My Dearest".data)) = true ∧
      commandNew (render (Command.title ("My Dearest".data))) =
        .ok (Command.title ("My Dearest".data))) ∧
    render (Command.title ("My Dearest".data)) = render (Command.title ("My Dearest".data)) :=
  ⟨⟨rfl, by decide, by decide⟩,
    c2_roundtrip (render (Command.title ("My Dearest".data)))
      (Command.title ("My Dearest".data)) (Command.title ("My Dearest".data))
      rfl (by decide) (by decide)⟩

/-- C10: (a) if scanning all lines in one `parse` call succeeds with
final document `D`, then feeding the same lines one at a time through
`parse_next_n_lines(1, ..)` (= `parse_next_line`) consumes them all and
produces the same `D`; (b) a blank (all-whitespace) line yields the
`Empty` signal from `Command::new` and a single-line batch step over it
consumes the line without touching the document. -/
theorem c10_batch_equiv :
    (∀ (ls : List Str) (p : Nat) (d D : Cuna),
      parseAllS ls p d = (.ok (), D) →
      rep1 ls.length ls p d = (.ok (), [], p + ls.length, D)) ∧
    (∀ (l : Str) (ls : List Str) (p : Nat) (d : Cuna), trim l = [] →
      commandNew l = .error .empty ∧ parseN 1 (l :: ls) p d = (.ok (), ls, p + 1, d)) := by
  constructor
  · intro ls
    induction ls with
    | nil =>
      intro p d D h
      simp only [parseAllS, Prod.mk.injEq] at h
      rw [← h.2]
      simp [rep1]
    | cons l ls ih =>
      intro p d D h
      simp only [parseAllS] at h
      have hlen : (l :: ls).length = ls.length + 1 := rfl
      rw [hlen, show p + (ls.length + 1) = (p + 1) + ls.length from by omega]
      cases hc : commandNew l with
      | error e =>
        cases e with
        | empty =>
          simp only [hc] at h
          have step : parseN 1 (l :: ls) p d = (.ok (), ls, p + 1, d) := by
            simp [parseN, hc]
          simp only [rep1, step]
          exact ih (p + 1) d D h
        | syntaxError m => simp [hc] at h
        | unexpectedToken m => simp [hc] at h
        | invalidArgument a => simp [hc] at h
      | ok cmd =>
        simp only [hc] at h
        rcases ha : applyCommand cmd d with ⟨r, d'⟩
        cases r with
        | error e2 => simp [ha] at h
        | ok u =>
          simp only [ha] at h
          have step : parseN 1 (l :: ls) p d = (.ok (), ls, p + 1, d') := by
            simp [parseN, hc, ha]
          simp only [rep1, step]
          exact ih (p + 1) d' D h
  · intro l ls p d h
    have hcn : commandNew l = .error .empty := by
      simp [commandNew, h]
    refine ⟨hcn, ?_⟩
    simp [parseN, hcn]

/-- C10 witness: a three-line document (with a blank line) parsed whole
and parsed line by line, plus the blank-line clause at a concrete state. -/
theorem c10_batch_equiv_witness :
    (parseAllS [("REM hi".data), (" ".data), ("FILE \"a\" WAVE".data)] 0 emptyCuna =
        (.ok (), ⟨⟨none, none, none, none, none⟩,
          [⟨("a".data), ("WAVE".data), []⟩], [("hi".data)]⟩) ∧
      rep1 3 [("REM hi".data), (" ".data), ("FILE \"a\" WAVE".data)] 0 emptyCuna =
        (.ok (), [], 3, ⟨⟨none, none, none, none, none⟩,
          [⟨("a".data), ("WAVE".data), []⟩], [("hi".data)]⟩)) ∧
    (trim (" ".data) = [] ∧
      commandNew (" ".data) = .error .empty ∧
      parseN 1 [(" ".data), ("X".data)] 5 docOneTrack =
        (.ok (), [("X".data)], 6, docOneTrack)) :=
  ⟨⟨by decide,
      c10_batch_equiv.1 [("REM hi".data), (" ".data), ("FILE \"a\" WAVE".data)] 0 emptyCuna
        ⟨⟨none, none, none, none, none⟩, [⟨("a".data), ("WAVE".data), []⟩], [("hi".data)]⟩
        (by decide)⟩,
    ⟨by decide,
      c10_batch_equiv.2 (" ".data) [("X".data)] 5 docOneTrack (by decide)⟩⟩
